import Mathlib

/-!
Verification of the catalog and listening-status engine of the
apple-podcast-helper repository, shallowly embedded in Lean.

JavaScript values flowing through the verified functions are modelled by
the inductive type `Json` below: JSON data plus the JS `undefined` marker
(needed because `JSON.stringify` omits object fields whose value is
`undefined`, which is observable in the manifest change detection).
Numbers are modelled as integers (the code only manipulates integral
counts at the points the claims touch), and locale- or Unicode-aware
primitives (`localeCompare` with base sensitivity, `toLowerCase`, NFKD
diacritic stripping) are modelled by codepoint order and per-character
lowercasing, which agree with the source on the ASCII inputs exercised by
the claims.
-/

inductive Json where
  | jnull
  | undef
  | jbool (b : Bool)
  | jnum (n : Int)
  | jstr (s : String)
  | jarr (xs : List Json)
  | jobj (fields : List (String × Json))
deriving Repr

mutual

/-- Structural Boolean equality of `Json` values. -/
def beqJson : Json → Json → Bool
  | .jnull, .jnull => true
  | .undef, .undef => true
  | .jbool a, .jbool b => a == b
  | .jnum a, .jnum b => a == b
  | .jstr a, .jstr b => a == b
  | .jarr a, .jarr b => beqJsonList a b
  | .jobj a, .jobj b => beqJsonFields a b
  | _, _ => false

def beqJsonList : List Json → List Json → Bool
  | [], [] => true
  | a :: as, b :: bs => beqJson a b && beqJsonList as bs
  | _, _ => false

def beqJsonFields : List (String × Json) → List (String × Json) → Bool
  | [], [] => true
  | (k1, v1) :: as, (k2, v2) :: bs => k1 == k2 && beqJson v1 v2 && beqJsonFields as bs
  | _, _ => false

end

mutual

theorem beqJson_iff : (a b : Json) → (beqJson a b = true ↔ a = b)
  | .jnull, b => by cases b <;> simp [beqJson]
  | .undef, b => by cases b <;> simp [beqJson]
  | .jbool x, b => by cases b <;> simp [beqJson]
  | .jnum x, b => by cases b <;> simp [beqJson]
  | .jstr x, b => by cases b <;> simp [beqJson]
  | .jarr xs, b => by
      cases b <;> simp [beqJson]
      exact beqJsonList_iff xs _
  | .jobj xs, b => by
      cases b <;> simp [beqJson]
      exact beqJsonFields_iff xs _

theorem beqJsonList_iff : (a b : List Json) → (beqJsonList a b = true ↔ a = b)
  | [], b => by cases b <;> simp [beqJsonList]
  | x :: xs, b => by
      cases b <;> simp [beqJsonList]
      exact and_congr (beqJson_iff x _) (beqJsonList_iff xs _)

theorem beqJsonFields_iff : (a b : List (String × Json)) → (beqJsonFields a b = true ↔ a = b)
  | [], b => by cases b <;> simp [beqJsonFields]
  | (k, v) :: xs, b => by
      cases b with
      | nil => simp [beqJsonFields]
      | cons hd tl =>
          obtain ⟨k2, v2⟩ := hd
          simp only [beqJsonFields, Bool.and_eq_true, beq_iff_eq, List.cons.injEq,
            Prod.mk.injEq]
          rw [beqJson_iff v v2, beqJsonFields_iff xs tl]

end

instance : DecidableEq Json := fun a b => decidable_of_iff _ (beqJson_iff a b)

namespace Json

/-- JavaScript truthiness of a value. -/
def truthy : Json → Bool
  | .jnull => false
  | .undef => false
  | .jbool b => b
  | .jnum n => n != 0
  | .jstr s => s != ""
  | .jarr _ => true
  | .jobj _ => true

/-- The JS expression `a || b`. -/
def jOr (a b : Json) : Json := if a.truthy then a else b

/-- Property read `v[k]`: a missing key or a non-object base yields `undefined`. -/
def jGet (v : Json) (k : String) : Json :=
  match v with
  | .jobj fields => (fields.lookup k).getD .undef
  | _ => (.undef)

/-- The JS test `typeof v === "object"` on a truthy value: arrays and plain
objects in this model. -/
def isObjLike : Json → Bool
  | .jarr _ => true
  | .jobj _ => true
  | _ => false

end Json

mutual

/-- The value produced by the round trip `JSON.parse(JSON.stringify(v))`:
object fields whose value is `undefined` are dropped, `undefined` array
elements become `null`. -/
def dropUndef : Json → Json
  | .jarr xs => .jarr (dropUndefList xs)
  | .jobj fs => .jobj (dropUndefFields fs)
  | v => v

def dropUndefList : List Json → List Json
  | [] => []
  | .undef :: rest => .jnull :: dropUndefList rest
  | v :: rest => dropUndef v :: dropUndefList rest

def dropUndefFields : List (String × Json) → List (String × Json)
  | [] => []
  | (_, .undef) :: rest => dropUndefFields rest
  | (k, v) :: rest => (k, dropUndef v) :: dropUndefFields rest

end

mutual

/-- JS `String(v)` coercion as used by `parsePositiveInteger`.  Arrays join
their elements with commas (null and undefined elements become the empty
string); plain objects give the standard object tag. -/
def jsToString : Json → String
  | .jnull => "null"
  | .undef => "undefined"
  | .jbool b => if b then "true" else "false"
  | .jnum n => toString n
  | .jstr s => s
  | .jarr xs => String.intercalate "," (jsToStringList xs)
  | .jobj _ => "[object Object]"

def jsToStringList : List Json → List String
  | [] => []
  | .jnull :: rest => "" :: jsToStringList rest
  | .undef :: rest => "" :: jsToStringList rest
  | v :: rest => jsToString v :: jsToStringList rest

end

/-- `Number.parseInt(s, 10)`: skip leading whitespace, optional sign, then
the maximal run of decimal digits; `none` models `NaN`. -/
def jsParseIntDec (s : String) : Option Int :=
  let cs := s.toList.dropWhile fun c => c.isWhitespace
  let signAndRest : Bool × List Char :=
    match cs with
    | '-' :: rest => (true, rest)
    | '+' :: rest => (false, rest)
    | _ => (false, cs)
  let digits := signAndRest.2.takeWhile Char.isDigit
  if digits.isEmpty then none
  else
    let v : Nat := digits.foldl (fun acc c => acc * 10 + (c.toNat - 48)) 0
    some (if signAndRest.1 then -(v : Int) else (v : Int))

/-- src/lib/utils/numbers.js `parsePositiveInteger`: `null`/`undefined` give
`null`; otherwise `parseInt(String(value), 10)`, rejecting `NaN` and
non-positive results.  (JS numbers are modelled as integers, so the
fractional-input corner is outside the model.) -/
def parsePositiveInteger (value : Json) : Option Int :=
  match value with
  | .jnull => none
  | .undef => none
  | v =>
      match jsParseIntDec (jsToString v) with
      | some n => if 0 < n then some n else none
      | none => none

/-- src/extract-transcripts.js line 55. -/
def DEFAULT_LIST_LIMIT : Nat := 20

structure PageResult (α : Type) where
  items : List α
  total : Nat
  limit : Nat
  page : Nat
  totalPages : Nat
deriving Repr, DecidableEq

/-- src/lib/catalog/index.js `paginateEntries` (lines 338-365).  `Math.ceil`
of a positive rational is modelled by Nat ceiling division; `entries.slice`
by drop/take. -/
def paginateEntries {α : Type} (entries : List α) (page limit : Json) : PageResult α :=
  let safeLimit : Nat := max (((parsePositiveInteger limit).map Int.toNat).getD DEFAULT_LIST_LIMIT) 1
  if entries.isEmpty then
    { items := [], total := 0, limit := safeLimit, page := 0, totalPages := 0 }
  else
    let total := entries.length
    let totalPages := max ((total + safeLimit - 1) / safeLimit) 1
    let desiredPage : Nat := (((parsePositiveInteger page).map Int.toNat).getD 1)
    let clampedPage := min (max desiredPage 1) totalPages
    let startIndex := (clampedPage - 1) * safeLimit
    let endIndex := min (startIndex + safeLimit) total
    { items := (entries.drop startIndex).take (endIndex - startIndex)
      total := total
      limit := safeLimit
      page := clampedPage
      totalPages := totalPages }

/-- ASCII lowering of one character (the A-Z range of `toLowerCase`). -/
def asciiLower (c : Char) : Char :=
  if 65 ≤ c.toNat ∧ c.toNat ≤ 90 then Char.ofNat (c.toNat + 32) else c

/-- JS `s.toLowerCase()`, modelled per character; agrees with the source on
ASCII strings. -/
def strLower (s : String) : String := String.mk (s.data.map asciiLower)

/-- src/unnamed/part_005 `normalizePlayState`: falsy or non-string input
gives `null`; recognized spellings (after `toLowerCase`) map to the three
canonical states; any other string passes through unchanged. -/
def normalizePlayState (playState : Json) : Json :=
  match playState with
  | .jstr s =>
      if s = "" then .jnull
      else
        let normalized := strLower s
        if normalized = "played" then .jstr "played"
        else if normalized = "inprogress" ∨ normalized = "in-progress" ∨
            normalized = "in_progress" then .jstr "inProgress"
        else if normalized = "unplayed" ∨ normalized = "notplayed" ∨
            normalized = "not-played" then .jstr "unplayed"
        else .jstr s
  | _ => .jnull

/-- The projection of a catalog entry that status filtering inspects. -/
structure CEntry where
  identifier : String
  playState : Json
deriving Repr, DecidableEq

/-- src/lib/catalog/index.js `filterEntriesByStatus` (lines 156-174).  The
unset status (JS `undefined`/`null`/empty string, all falsy) is modelled by
the empty string. -/
def filterEntriesByStatus (entries : List CEntry) (status : String) : List CEntry :=
  if status = "" ∨ status = "all" then entries
  else
    entries.filter fun entry =>
      let state := normalizePlayState entry.playState
      if status = "unplayed" then
        decide (state = Json.jstr "unplayed" ∨ state = Json.jstr "inProgress")
      else if status = "played" then decide (state = Json.jstr "played")
      else if status = "inProgress" then decide (state = Json.jstr "inProgress")
      else false

/-! ## Manifest store (src/lib/listening-status-manifest.js) -/

/-- One persisted manifest entry.  Fields hold raw JS values; a field that a
stored object lacks is `undef`. -/
structure MEntry where
  identifier : String
  metadata : Json
  relativePath : Json
  playState : Json
  skipReason : Json
  lastProcessedAt : Json
  lastUpdatedAt : Json
deriving Repr, DecidableEq

/-- `cloneMetadata` (lines 19-24): non-object or falsy input gives `null`,
otherwise the `JSON.parse(JSON.stringify(...))` round trip, i.e. a deep copy
with `undefined`-valued fields dropped. -/
def cloneMetadata (metadata : Json) : Json :=
  if metadata.truthy && metadata.isObjLike then dropUndef metadata else Json.jnull

/-- The upsert payload after destructuring.  The identifier is modelled as a
string, the empty string standing for a missing or empty (both falsy)
`identifier` field.  The destructuring defaults for `relativePath`,
`skipReason` and `processed` coincide with how `undefined` flows through the
body, so payloads are quantified after defaulting. -/
structure UpsertPayload where
  identifier : String
  metadata : Json
  relativePath : Json
  skipReason : Json
  processed : Json
deriving Repr, DecidableEq

/-- The comparable projection of an entry built by `upsertManifestEntry`. -/
structure Comparable where
  metadata : Json
  relativePath : Json
  playState : Json
  skipReason : Json
  lastProcessedAt : Json
deriving Repr, DecidableEq

/-- The object literal that the source passes to `JSON.stringify` (field
order as written in the source). -/
def comparableToJson (c : Comparable) : Json :=
  .jobj [("metadata", c.metadata), ("relativePath", c.relativePath),
    ("playState", c.playState), ("skipReason", c.skipReason),
    ("lastProcessedAt", c.lastProcessedAt)]

/-- Field read on `manifest.entries[identifier] || {}`: reading any field of
the empty-object default yields `undefined`. -/
def exField (ex : Option MEntry) (f : MEntry → Json) : Json :=
  match ex with
  | some e => f e
  | none => (.undef)

/-- The `nextComparable` object of `upsertManifestEntry` (lines 82-92),
computed at timestamp `nowIso`. -/
def computeNext (ex : Option MEntry) (p : UpsertPayload) (nowIso : String) : Comparable :=
  let serializedMetadata :=
    if p.metadata.truthy then cloneMetadata p.metadata
    else Json.jOr (exField ex MEntry.metadata) Json.jnull
  { metadata := serializedMetadata
    relativePath :=
      match p.relativePath with
      | .jstr s => .jstr s
      | _ => Json.jOr (exField ex MEntry.relativePath) Json.jnull
    playState :=
      if serializedMetadata.truthy && (serializedMetadata.jGet "listeningStatus").truthy then
        (serializedMetadata.jGet "listeningStatus").jGet "playState"
      else Json.jOr (exField ex MEntry.playState) Json.jnull
    skipReason := Json.jOr p.skipReason Json.jnull
    lastProcessedAt :=
      if p.processed.truthy then .jstr nowIso
      else Json.jOr (exField ex MEntry.lastProcessedAt) Json.jnull }

/-- The `prevComparable` object of `upsertManifestEntry` (lines 93-99). -/
def computePrev (ex : Option MEntry) : Comparable :=
  { metadata := Json.jOr (exField ex MEntry.metadata) Json.jnull
    relativePath := Json.jOr (exField ex MEntry.relativePath) Json.jnull
    playState := Json.jOr (exField ex MEntry.playState) Json.jnull
    skipReason := Json.jOr (exField ex MEntry.skipReason) Json.jnull
    lastProcessedAt := Json.jOr (exField ex MEntry.lastProcessedAt) Json.jnull }

/-- The entry object `{identifier, ...nextComparable, lastUpdatedAt: nowIso}`
stored on a detected change (lines 104-108). -/
def entryFromComparable (identifier : String) (next : Comparable) (nowIso : String) : MEntry :=
  { identifier := identifier
    metadata := next.metadata
    relativePath := next.relativePath
    playState := next.playState
    skipReason := next.skipReason
    lastProcessedAt := next.lastProcessedAt
    lastUpdatedAt := .jstr nowIso }

/-- Assignment `entries[k] = v` on a JS object: replaces in place when the
key exists, appends otherwise (JS objects keep insertion order and never
hold duplicate keys). -/
def setEntry {β : Type} (entries : List (String × β)) (k : String) (v : β) :
    List (String × β) :=
  match entries with
  | [] => [(k, v)]
  | (k0, v0) :: rest => if k0 = k then (k, v) :: rest else (k0, v0) :: setEntry rest k v

/-- `upsertManifestEntry` (lines 68-110) over the manifest's `entries`
object, modelled as an association list; the payload is `none` for a
falsy (`null`/`undefined`) payload argument.  The current wall-clock ISO
string is passed explicitly.  The change test compares the
`JSON.stringify` images, i.e. the `dropUndef` normal forms of the two
comparable objects. -/
def upsertManifestEntry (entries : List (String × MEntry)) (payload : Option UpsertPayload)
    (nowIso : String) : Bool × List (String × MEntry) :=
  match payload with
  | none => (false, entries)
  | some p =>
      if p.identifier = "" then (false, entries)
      else
        let ex := entries.lookup p.identifier
        let next := computeNext ex p nowIso
        let prev := computePrev ex
        if dropUndef (comparableToJson prev) = dropUndef (comparableToJson next) then
          (false, entries)
        else
          (true, setEntry entries p.identifier (entryFromComparable p.identifier next nowIso))

/-- `mergeManifestMetadataIntoMap` (lines 112-124) over the manifest's
`entries` object and the live metadata `Map`, both modelled as association
lists in iteration order; `Map.set` on an absent key appends.  Entries with
falsy `metadata` are skipped by the guard on line 117. -/
def mergeManifestMetadataIntoMap (entries : List (String × MEntry))
    (metadataMap : List (String × Json)) : List (String × Json) :=
  match entries with
  | [] => metadataMap
  | (identifier, entry) :: rest =>
      let updated :=
        if entry.metadata.truthy = false then metadataMap
        else if (metadataMap.lookup identifier).isSome then metadataMap
        else metadataMap ++ [(identifier, cloneMetadata entry.metadata)]
      mergeManifestMetadataIntoMap rest updated

/-- True exactly when `!raw.trim()` holds: every character is whitespace. -/
def jsBlank (s : String) : Bool := s.data.all Char.isWhitespace

/-- Assignment `v[k] = x`: updates a plain object; a write to a non-object
(notably a top-level JSON array, whose expando properties the `Json` type
cannot carry) is not tracked, so the wrong-shape result below is stated
for plain-object parses. -/
def jSet (v : Json) (k : String) (x : Json) : Json :=
  match v with
  | .jobj fields => .jobj (setEntry fields k x)
  | other => other

/-- `createEmptyManifest` (lines 11-17). -/
def createEmptyManifest : Json :=
  .jobj [("version", .jnum 1), ("entries", .jobj []), ("updatedAt", .jnull)]

/-- The outcome of the file read performed by the loader: the file is
absent, reading threw, or reading produced `raw` whose `JSON.parse` result
(a thrown error or a value) is `parsed`.  The parser itself is external to
the model, so the raw text and its parse are supplied together. -/
inductive LoadOutcome where
  | missing
  | readError
  | content (raw : String) (parsed : Except Unit Json)
deriving Repr

/-- `loadListeningStatusManifest` (lines 26-52).  Returns the manifest value
together with a flag recording whether `console.warn` fired (it fires only
in the `catch` branch, i.e. when reading or parsing threw). -/
def loadListeningStatusManifest (outcome : LoadOutcome) : Json × Bool :=
  match outcome with
  | .missing => (createEmptyManifest, false)
  | .readError => (createEmptyManifest, true)
  | .content raw parsed =>
      if jsBlank raw then (createEmptyManifest, false)
      else
        match parsed with
        | .error _ => (createEmptyManifest, true)
        | .ok v =>
            if !(v.truthy && v.isObjLike) then (createEmptyManifest, false)
            else
              let v1 :=
                if !((v.jGet "entries").truthy && (v.jGet "entries").isObjLike) then
                  jSet v "entries" (.jobj [])
                else v
              let v2 := jSet v1 "version" (.jnum 1)
              let v3 := jSet v2 "updatedAt" (Json.jOr (v2.jGet "updatedAt") .jnull)
              (v3, false)

/-! ## Catalog ordering (src/lib/catalog/index.js lines 131-154) -/

/-- `x.localeCompare(y, undefined, { sensitivity: "base" })`, modelled as the
sign of codepoint comparison of the lowercased strings (base sensitivity is
case folding on ASCII, the domain the claims exercise). -/
def localeCmpBase (a b : String) : Int :=
  if strLower a < strLower b then -1 else if strLower a = strLower b then 0 else 1

/-- Plain `x.localeCompare(y)` (the identifier tiebreak), modelled as the
sign of codepoint comparison. -/
def localeCmp (a b : String) : Int :=
  if a < b then -1 else if a = b then 0 else 1

/-- The fields of a built catalog entry that the comparator reads.  In built
entries these are always strings, so the `|| ""` guards of the source are
the identity (the empty string is its own default) and the fields are
modelled as strings directly. -/
structure SortEntry where
  sortTimestamp : Int
  showTitle : String
  episodeTitle : String
  identifier : String
deriving Repr, DecidableEq

/-- `compareCatalogEntriesDesc` (lines 131-154). -/
def compareCatalogEntriesDesc (a b : SortEntry) : Int :=
  if a.sortTimestamp ≠ b.sortTimestamp then b.sortTimestamp - a.sortTimestamp
  else
    let showCompare := localeCmpBase a.showTitle b.showTitle
    if showCompare ≠ 0 then showCompare
    else
      let episodeCompare := localeCmpBase a.episodeTitle b.episodeTitle
      if episodeCompare ≠ 0 then episodeCompare
      else localeCmp a.identifier b.identifier

/-- Key equality of the documented sort order: equal timestamp,
case-insensitively equal show and episode titles, equal identifier. -/
def sortKeyEq (a b : SortEntry) : Prop :=
  a.sortTimestamp = b.sortTimestamp ∧ strLower a.showTitle = strLower b.showTitle ∧
    strLower a.episodeTitle = strLower b.episodeTitle ∧ a.identifier = b.identifier

/-- Strict precedence of the documented sort order: descending timestamp,
then case-insensitive show title, episode title, identifier. -/
def sortKeyLt (a b : SortEntry) : Prop :=
  b.sortTimestamp < a.sortTimestamp ∨
    (a.sortTimestamp = b.sortTimestamp ∧
      (strLower a.showTitle < strLower b.showTitle ∨
        (strLower a.showTitle = strLower b.showTitle ∧
          (strLower a.episodeTitle < strLower b.episodeTitle ∨
            (strLower a.episodeTitle = strLower b.episodeTitle ∧
              a.identifier < b.identifier)))))

/-! ## Fuzzy matching (src/lib/catalog/index.js lines 462-520) -/

/-- Membership of the `[a-z0-9]` class tested by the normalization regex. -/
def isAsciiAlphanumLower (c : Char) : Bool :=
  (97 ≤ c.toNat && c.toNat ≤ 122) || (48 ≤ c.toNat && c.toNat ≤ 57)

/-- The maximal runs of alphanumeric characters, in order; the characters
between runs are exactly what the regex `[^a-z0-9]+` collapses away. -/
def tokenSplit : List Char → List (List Char)
  | [] => []
  | c :: rest =>
      let ts := tokenSplit rest
      if isAsciiAlphanumLower c then
        match rest with
        | r :: _ =>
            if isAsciiAlphanumLower r then
              match ts with
              | t :: ts2 => (c :: t) :: ts2
              | [] => [[c]]
            else [c] :: ts
        | [] => [[c]]
      else ts

/-- The alphanumeric tokens of the lowercased input.  (NFKD normalization
and combining-diacritic stripping are the identity on ASCII, the domain the
claims exercise, and are folded into the per-character lowering.) -/
def normTokenChars (s : String) : List (List Char) := tokenSplit (s.data.map asciiLower)

/-- The runs joined by single spaces. -/
def joinSpaces : List (List Char) → List Char
  | [] => []
  | [t] => t
  | t :: rest => t ++ ' ' :: joinSpaces rest

/-- `normalizeMatchValue` (lines 462-472): lowercase, collapse runs of
non-alphanumerics into single spaces, trim — i.e. the maximal alphanumeric
runs joined by single spaces. -/
def normalizeMatchValue (s : String) : String :=
  String.mk (joinSpaces (normTokenChars s))

structure MatchCandidate where
  normalized : String
  collapsed : String
  tokens : List String
  initials : String
deriving Repr, DecidableEq

/-- `buildMatchCandidate` (lines 474-488).  The source tests falsiness of
the normalized string; since every token is a nonempty run, that string is
empty exactly when the token list is empty.  Splitting the normalized
string on whitespace returns exactly the runs, and collapsing its spaces
concatenates them. -/
def buildMatchCandidate (value : String) : Option MatchCandidate :=
  if normTokenChars value = [] then none
  else
    some
      { normalized := normalizeMatchValue value
        collapsed := String.mk (normTokenChars value).flatten
        tokens := (normTokenChars value).map String.mk
        initials := String.mk ((normTokenChars value).filterMap List.head?) }

/-- `needle` occurs as a contiguous substring of `hay` (JS `includes`). -/
def jsIncludes (hay needle : String) : Bool := decide (needle.data <:+: hay.data)

/-- `createFuzzyMatcher` (lines 490-520): `null` (no matcher) when the query
normalizes to nothing, otherwise the four-strategy predicate. -/
def createFuzzyMatcher (query : String) : Option (String → Bool) :=
  match buildMatchCandidate query with
  | none => none
  | some candidate =>
      some fun value =>
        match buildMatchCandidate value with
        | none => false
        | some target =>
            if (candidate.normalized != "") && jsIncludes target.normalized candidate.normalized then
              true
            else if (candidate.collapsed != "") && jsIncludes target.collapsed candidate.collapsed then
              true
            else if (decide (candidate.tokens ≠ [])) &&
                candidate.tokens.all (fun t => jsIncludes target.normalized t) then
              true
            else if (candidate.initials != "") && jsIncludes target.initials candidate.initials then
              true
            else false

/-! ## Interactive selector (src/lib/cli/interactive-selector.js) -/

/-- The fields of a catalog entry that the selector's confirm path reads. -/
structure SelEntry where
  identifier : Json
  relativePath : Json
  normalizedRelativePath : Json
  absolutePath : Json
  hasMarkdown : Bool
deriving Repr, DecidableEq

inductive SelResolution where
  | single (entry : SelEntry)
  | multiple (entries : List SelEntry)
deriving Repr, DecidableEq

/-- The mutable state of `InteractiveSelectorView` that the confirm logic
touches.  `resolved` models whether `handleResolve` (the resolution
callback plus exit) has run: the machine is in the `Browsing` state while
it is `none`. -/
structure SelState where
  cursor : Nat
  selected : List Nat
  commandBuffer : String
  statusMessage : Option String
  resolved : Option SelResolution
deriving Repr, DecidableEq

/-- Insertion of one index into a sorted list (ascending). -/
def insertNatAsc (n : Nat) : List Nat → List Nat
  | [] => [n]
  | m :: rest => if n ≤ m then n :: m :: rest else m :: insertNatAsc n rest

/-- `Array.from(selectedSet).sort((a, b) => a - b)`. -/
def sortNatAsc : List Nat → List Nat
  | [] => []
  | n :: rest => insertNatAsc n (sortNatAsc rest)

/-- `handleSelectIndex` (lines 282-305): out-of-range indices warn; an
in-range target without an absolute path or without a materialized markdown
file sets an inline error and does not resolve; otherwise the entry
resolves. -/
def handleSelectIndex (entries : List SelEntry) (st : SelState) (index : Int) : SelState :=
  if index < 0 ∨ (entries.length : Int) ≤ index then
    let msg := s!"[WARN] Selection {index + 1} is out of range (1-{entries.length})."
    { st with statusMessage := some msg }
  else
    match entries.get? index.toNat with
    | none =>
        let msg := s!"[ERROR] Markdown file not found for {toString (index + 1)}."
        { st with statusMessage := some msg }
    | some target =>
        if !target.absolutePath.truthy || !target.hasMarkdown then
          let identifier :=
            Json.jOr target.normalizedRelativePath
              (Json.jOr target.relativePath
                (Json.jOr target.identifier (.jstr (toString (index + 1)))))
          let msg := s!"[ERROR] Markdown file not found for {jsToString identifier}."
          { st with statusMessage := some msg }
        else { st with resolved := some (.single target) }

/-- The `key.return` branch of the input handler (lines 395-422): a
non-empty digit buffer resolves the 1-based index it names (clearing the
buffer first), an empty buffer with nothing selected confirms the cursor,
and a non-empty selection resolves the selected entries. -/
def handleReturnKey (entries : List SelEntry) (st : SelState) : SelState :=
  if st.commandBuffer ≠ "" then
    match jsParseIntDec st.commandBuffer with
    | none =>
        { st with
            commandBuffer := ""
            statusMessage := some "[WARN] Invalid numeric selection." }
    | some numeric =>
        handleSelectIndex entries { st with commandBuffer := "" } (numeric - 1)
  else if st.selected.isEmpty then
    handleSelectIndex entries st (st.cursor : Int)
  else
    let selectedEntries := (sortNatAsc st.selected).filterMap fun i => entries.get? i
    if selectedEntries.isEmpty then
      { st with statusMessage := some "[WARN] No valid selected transcripts found." }
    else { st with resolved := some (.multiple selectedEntries) }

/-- A key event first clears the inline status (line 366) before the
branch for the pressed key runs. -/
def onReturnKey (entries : List SelEntry) (st : SelState) : SelState :=
  handleReturnKey entries { st with statusMessage := none }

/-! ## Verification of the claims -/

theorem parsePositiveInteger_pos : ∀ (v : Json) (n : Int),
    parsePositiveInteger v = some n → 0 < n := by
  intro v n h
  unfold parsePositiveInteger at h
  split at h
  · exact absurd h (by simp)
  · exact absurd h (by simp)
  · split at h
    · split at h
      · rename_i hpos
        obtain rfl : _ = n := Option.some.inj h
        exact hpos
      · exact absurd h (by simp)
    · exact absurd h (by simp)

/-- Claim C1 (amended): `paginateEntries` on a nonempty list defaults an
invalid or missing limit to the fixed constant (and keeps it at least 1),
clamps the requested page into the interval from 1 to totalPages, computes
totalPages as the ceiling of total over limit (at least 1), and returns
the slice of the input for the clamped page; on an empty list it instead
returns the sentinel result with page 0 and totalPages 0.  The 25-entry,
limit-10 examples hold: page 1 has 10 items, page 3 has the final 5, page
99 returns the same items as page 3, and totalPages is 3. -/
theorem paginate_entries_amended :
    (∀ (entries : List Nat) (page limit : Json), entries ≠ [] →
      1 ≤ (paginateEntries entries page limit).limit ∧
      (parsePositiveInteger limit = none →
        (paginateEntries entries page limit).limit = DEFAULT_LIST_LIMIT) ∧
      (∀ n : Int, parsePositiveInteger limit = some n →
        (paginateEntries entries page limit).limit = n.toNat) ∧
      (paginateEntries entries page limit).total = entries.length ∧
      (paginateEntries entries page limit).totalPages =
        max ((entries.length + (paginateEntries entries page limit).limit - 1) /
          (paginateEntries entries page limit).limit) 1 ∧
      1 ≤ (paginateEntries entries page limit).page ∧
      (paginateEntries entries page limit).page ≤ (paginateEntries entries page limit).totalPages ∧
      (paginateEntries entries page limit).items =
        (entries.drop (((paginateEntries entries page limit).page - 1) *
          (paginateEntries entries page limit).limit)).take
          (paginateEntries entries page limit).limit) ∧
    (∀ (page limit : Json),
      paginateEntries ([] : List Nat) page limit =
        { items := [], total := 0,
          limit := max (((parsePositiveInteger limit).map Int.toNat).getD DEFAULT_LIST_LIMIT) 1,
          page := 0, totalPages := 0 }) ∧
    ((paginateEntries (List.range 25) (Json.jnum 1) (Json.jnum 10)).items = List.range 10 ∧
     (paginateEntries (List.range 25) (Json.jnum 1) (Json.jnum 10)).items.length = 10 ∧
     (paginateEntries (List.range 25) (Json.jnum 3) (Json.jnum 10)).items =
       ((List.range 25).drop 20).take 5 ∧
     (paginateEntries (List.range 25) (Json.jnum 3) (Json.jnum 10)).items.length = 5 ∧
     (paginateEntries (List.range 25) (Json.jnum 99) (Json.jnum 10)).items =
       (paginateEntries (List.range 25) (Json.jnum 3) (Json.jnum 10)).items ∧
     (paginateEntries (List.range 25) (Json.jnum 1) (Json.jnum 10)).totalPages = 3) := by
  refine ⟨?_, fun page limit => rfl, ?_⟩
  · intro entries page limit hne
    have hE : entries.isEmpty = false := by simpa using hne
    have h1 : 1 ≤ (paginateEntries entries page limit).limit := by
      simp only [paginateEntries, hE, Bool.false_eq_true, if_false]
      exact le_max_right _ 1
    have h2 : parsePositiveInteger limit = none →
        (paginateEntries entries page limit).limit = DEFAULT_LIST_LIMIT := by
      intro h0
      simp only [paginateEntries, hE, Bool.false_eq_true, if_false, h0]
      decide
    have h3 : ∀ n : Int, parsePositiveInteger limit = some n →
        (paginateEntries entries page limit).limit = n.toNat := by
      intro n hsome
      have hp := parsePositiveInteger_pos limit n hsome
      simp only [paginateEntries, hE, Bool.false_eq_true, if_false, hsome,
        Option.map_some', Option.map_some, Option.getD_some]
      omega
    have h4 : (paginateEntries entries page limit).total = entries.length := by
      simp only [paginateEntries, hE, Bool.false_eq_true, if_false]
    have h5 : (paginateEntries entries page limit).totalPages =
        max ((entries.length + (paginateEntries entries page limit).limit - 1) /
          (paginateEntries entries page limit).limit) 1 := by
      simp only [paginateEntries, hE, Bool.false_eq_true, if_false]
    have h6 : 1 ≤ (paginateEntries entries page limit).page := by
      simp only [paginateEntries, hE, Bool.false_eq_true, if_false]
      omega
    have h7 : (paginateEntries entries page limit).page ≤
        (paginateEntries entries page limit).totalPages := by
      simp only [paginateEntries, hE, Bool.false_eq_true, if_false]
      omega
    have h8 : (paginateEntries entries page limit).items =
        (entries.drop (((paginateEntries entries page limit).page - 1) *
          (paginateEntries entries page limit).limit)).take
          (paginateEntries entries page limit).limit := by
      simp only [paginateEntries, hE, Bool.false_eq_true, if_false]
      set L := max (((parsePositiveInteger limit).map Int.toNat).getD DEFAULT_LIST_LIMIT) 1 with hL
      set TP := max ((entries.length + L - 1) / L) 1 with hTP
      set d : Nat := ((parsePositiveInteger page).map Int.toNat).getD 1 with hd
      set s := (min (max d 1) TP - 1) * L with hs
      by_cases hc : s + L ≤ entries.length
      · have hmin : min (s + L) entries.length - s = L := by omega
        rw [hmin]
      · have hmin : min (s + L) entries.length - s = entries.length - s := by omega
        rw [hmin]
        have hlen : (entries.drop s).length = entries.length - s := List.length_drop s entries
        rw [← hlen, List.take_length]
        exact (List.take_of_length_le (by omega : (entries.drop s).length ≤ L)).symm
    exact ⟨h1, h2, h3, h4, h5, h6, h7, h8⟩
  · refine ⟨by decide, by decide, by decide, by decide, by decide, by decide⟩

/-- Witness for the amended pagination claim at a concrete nonempty list. -/
theorem paginate_entries_amended_witness :
    1 ≤ (paginateEntries [0] Json.jnull Json.jnull).limit :=
  (paginate_entries_amended.1 [0] Json.jnull Json.jnull (by decide)).1

/-- Claim C1 counterexample: on the empty list the code returns totalPages
0 and page 0, not the well-formed single page (totalPages 1 and page at
least 1) the claim demands. -/
theorem paginate_entries_empty_counterexample :
    ¬ ((paginateEntries ([] : List Nat) (Json.jnum 1) (Json.jnum 10)).totalPages = 1 ∧
       1 ≤ (paginateEntries ([] : List Nat) (Json.jnum 1) (Json.jnum 10)).page) := by decide

/-- Claim C3: status filtering keeps exactly the entries whose normalized
play state matches the status (unplayed also admits inProgress; played and
inProgress are exact; "all" or the unset status keeps everything); the
unplayed and played results are disjoint and, together with the entries of
unrecognized state, reproduce the "all" result. -/
theorem filter_entries_by_status_semantics :
    ∀ entries : List CEntry,
      (filterEntriesByStatus entries "unplayed" = entries.filter (fun e =>
        decide (normalizePlayState e.playState = Json.jstr "unplayed" ∨
                normalizePlayState e.playState = Json.jstr "inProgress"))) ∧
      (filterEntriesByStatus entries "played" = entries.filter (fun e =>
        decide (normalizePlayState e.playState = Json.jstr "played"))) ∧
      (filterEntriesByStatus entries "inProgress" = entries.filter (fun e =>
        decide (normalizePlayState e.playState = Json.jstr "inProgress"))) ∧
      filterEntriesByStatus entries "all" = entries ∧
      filterEntriesByStatus entries "" = entries ∧
      (∀ e, e ∈ filterEntriesByStatus entries "unplayed" →
        e ∉ filterEntriesByStatus entries "played") ∧
      (∀ e, e ∈ filterEntriesByStatus entries "all" ↔
        (e ∈ filterEntriesByStatus entries "unplayed" ∨
         e ∈ filterEntriesByStatus entries "played" ∨
         (e ∈ entries ∧ normalizePlayState e.playState ≠ Json.jstr "unplayed" ∧
          normalizePlayState e.playState ≠ Json.jstr "inProgress" ∧
          normalizePlayState e.playState ≠ Json.jstr "played"))) := by
  intro entries
  refine ⟨rfl, rfl, rfl, rfl, rfl, ?_, ?_⟩
  · intro e he hmem
    rw [show filterEntriesByStatus entries "unplayed" = entries.filter (fun e =>
        decide (normalizePlayState e.playState = Json.jstr "unplayed" ∨
                normalizePlayState e.playState = Json.jstr "inProgress")) from rfl] at he
    rw [show filterEntriesByStatus entries "played" = entries.filter (fun e =>
        decide (normalizePlayState e.playState = Json.jstr "played")) from rfl] at hmem
    rw [List.mem_filter] at he hmem
    have h1 := of_decide_eq_true he.2
    have h2 := of_decide_eq_true hmem.2
    rcases h1 with h | h <;> rw [h] at h2 <;> exact absurd (Json.jstr.inj h2) (by decide)
  · intro e
    rw [show filterEntriesByStatus entries "all" = entries from rfl]
    constructor
    · intro he
      by_cases c1 : normalizePlayState e.playState = Json.jstr "unplayed"
      · exact Or.inl (List.mem_filter.mpr ⟨he, by simp [c1]⟩)
      · by_cases c2 : normalizePlayState e.playState = Json.jstr "inProgress"
        · exact Or.inl (List.mem_filter.mpr ⟨he, by simp [c2]⟩)
        · by_cases c3 : normalizePlayState e.playState = Json.jstr "played"
          · exact Or.inr (Or.inl (List.mem_filter.mpr ⟨he, by simp [c3]⟩))
          · exact Or.inr (Or.inr ⟨he, c1, c2, c3⟩)
    · rintro (h | h | ⟨he, -, -, -⟩)
      · exact (List.mem_filter.mp h).1
      · exact (List.mem_filter.mp h).1
      · exact he

/-- Witness for the status-filter claim: an inProgress entry sits in the
unplayed result and, by disjointness, not in the played result. -/
theorem filter_entries_by_status_semantics_witness :
    (⟨"a", Json.jstr "inProgress"⟩ : CEntry) ∉
      filterEntriesByStatus [⟨"a", Json.jstr "inProgress"⟩] "played" :=
  (filter_entries_by_status_semantics [⟨"a", Json.jstr "inProgress"⟩]).2.2.2.2.2.1
    ⟨"a", Json.jstr "inProgress"⟩ (by decide)

/-- Claim C9 (amended): normalization maps every accepted spelling of the
three canonical play states (in any casing) to its canonical value and
returns every other NONEMPTY string unchanged; the empty string, being
falsy, maps to null exactly like non-string inputs. -/
theorem normalize_play_state_spellings :
    (∀ s : String, s ≠ "" → strLower s = "played" →
      normalizePlayState (Json.jstr s) = Json.jstr "played") ∧
    (∀ s : String, s ≠ "" →
      (strLower s = "inprogress" ∨ strLower s = "in-progress" ∨ strLower s = "in_progress") →
      normalizePlayState (Json.jstr s) = Json.jstr "inProgress") ∧
    (∀ s : String, s ≠ "" →
      (strLower s = "unplayed" ∨ strLower s = "notplayed" ∨ strLower s = "not-played") →
      normalizePlayState (Json.jstr s) = Json.jstr "unplayed") ∧
    (∀ s : String, s ≠ "" →
      strLower s ∉ (["played", "inprogress", "in-progress", "in_progress",
        "unplayed", "notplayed", "not-played"] : List String) →
      normalizePlayState (Json.jstr s) = Json.jstr s) ∧
    normalizePlayState (Json.jstr "") = Json.jnull ∧
    normalizePlayState (Json.jnum 7) = Json.jnull := by
  refine ⟨?_, ?_, ?_, ?_, by decide, by decide⟩
  · intro s hne h
    simp [normalizePlayState, hne, h]
  · intro s hne h
    rcases h with h | h | h <;> simp [normalizePlayState, hne, h]
  · intro s hne h
    rcases h with h | h | h <;> simp [normalizePlayState, hne, h]
  · intro s hne h
    simp only [List.mem_cons, List.not_mem_nil, or_false, not_or] at h
    obtain ⟨n1, n2, n3, n4, n5, n6, n7⟩ := h
    simp [normalizePlayState, hne, n1, n2, n3, n4, n5, n6, n7]

/-- Witness for the play-state normalization claim at an uppercase input. -/
theorem normalize_play_state_spellings_witness :
    normalizePlayState (Json.jstr "PLAYED") = Json.jstr "played" :=
  normalize_play_state_spellings.1 "PLAYED" (by decide) (by decide)

/-- Claim C9 counterexample: the empty string matches no accepted spelling,
yet normalization returns null rather than the string unchanged. -/
theorem normalize_play_state_empty_counterexample :
    normalizePlayState (Json.jstr "") ≠ Json.jstr "" ∧
    normalizePlayState (Json.jstr "") = Json.jnull := by decide

theorem jOr_null_idem (a : Json) : Json.jOr (Json.jOr a .jnull) .jnull = Json.jOr a .jnull := by
  by_cases h : a.truthy = true
  · simp only [Json.jOr, if_pos h]
  · simp only [Json.jOr, if_neg h, ite_self]

theorem jOr_null_of_truthy {a : Json} (h : a.truthy = true) : Json.jOr a .jnull = a := by
  simp only [Json.jOr, if_pos h]

theorem cloneMetadata_jOr (m : Json) : Json.jOr (cloneMetadata m) .jnull = cloneMetadata m := by
  cases m <;> simp [cloneMetadata, Json.truthy, Json.isObjLike, dropUndef, Json.jOr]

theorem lookup_cons {β : Type} (k0 k : String) (v : β) (rest : List (String × β)) :
    List.lookup k ((k0, v) :: rest) = if k = k0 then some v else rest.lookup k := by
  by_cases h : k = k0
  · have hb : (k == k0) = true := by simpa using h
    simp [List.lookup, hb, h]
  · have hb : (k == k0) = false := by simpa [beq_eq_false_iff_ne] using h
    simp [List.lookup, hb, h]

theorem lookup_setEntry {β : Type} (entries : List (String × β)) (k : String) (v : β) :
    (setEntry entries k v).lookup k = some v := by
  induction entries with
  | nil => simp [setEntry, lookup_cons]
  | cons head rest ih =>
      obtain ⟨k0, v0⟩ := head
      by_cases h : k0 = k
      · simp [setEntry, h, lookup_cons]
      · rw [show setEntry ((k0, v0) :: rest) k v = (k0, v0) :: setEntry rest k v from by
          simp [setEntry, h]]
        rw [lookup_cons, if_neg (Ne.symm h)]
        exact ih

theorem lookup_setEntry_other {β : Type} (entries : List (String × β)) (k k2 : String) (v : β)
    (h : k2 ≠ k) : (setEntry entries k v).lookup k2 = entries.lookup k2 := by
  induction entries with
  | nil =>
      rw [show setEntry ([] : List (String × β)) k v = [(k, v)] from rfl, lookup_cons, if_neg h]
  | cons head rest ih =>
      obtain ⟨k0, v0⟩ := head
      by_cases h0 : k0 = k
      · subst h0
        rw [show setEntry ((k0, v0) :: rest) k0 v = (k0, v) :: rest from by simp [setEntry]]
        rw [lookup_cons, lookup_cons, if_neg h]
        rw [if_neg h]
      · rw [show setEntry ((k0, v0) :: rest) k v = (k0, v0) :: setEntry rest k v from by
          simp [setEntry, h0]]
        rw [lookup_cons, lookup_cons]
        by_cases h2 : k2 = k0
        · simp [h2]
        · rw [if_neg h2, if_neg h2]
          exact ih

theorem comparable_ext (c d : Comparable) (h1 : c.metadata = d.metadata)
    (h2 : c.relativePath = d.relativePath) (h3 : c.playState = d.playState)
    (h4 : c.skipReason = d.skipReason) (h5 : c.lastProcessedAt = d.lastProcessedAt) :
    c = d := by
  cases c; cases d; simp_all

theorem computeNext_metadata (ex : Option MEntry) (p : UpsertPayload) (t : String) :
    (computeNext ex p t).metadata =
      if p.metadata.truthy then cloneMetadata p.metadata
      else Json.jOr (exField ex MEntry.metadata) .jnull := by
  simp [computeNext]

theorem computeNext_relativePath (ex : Option MEntry) (p : UpsertPayload) (t : String) :
    (computeNext ex p t).relativePath =
      (match p.relativePath with
       | .jstr s => .jstr s
       | _ => Json.jOr (exField ex MEntry.relativePath) .jnull) := by
  simp [computeNext]

theorem computeNext_playState (ex : Option MEntry) (p : UpsertPayload) (t : String) :
    (computeNext ex p t).playState =
      if (computeNext ex p t).metadata.truthy &&
          ((computeNext ex p t).metadata.jGet "listeningStatus").truthy then
        ((computeNext ex p t).metadata.jGet "listeningStatus").jGet "playState"
      else Json.jOr (exField ex MEntry.playState) .jnull := by
  simp [computeNext]

theorem computeNext_skipReason (ex : Option MEntry) (p : UpsertPayload) (t : String) :
    (computeNext ex p t).skipReason = Json.jOr p.skipReason .jnull := by
  simp [computeNext]

theorem computeNext_lastProcessedAt (ex : Option MEntry) (p : UpsertPayload) (t : String) :
    (computeNext ex p t).lastProcessedAt =
      if p.processed.truthy then .jstr t
      else Json.jOr (exField ex MEntry.lastProcessedAt) .jnull := by
  simp [computeNext]

theorem computePrev_of_entryFrom (id : String) (n : Comparable) (t : String)
    (hm : Json.jOr n.metadata .jnull = n.metadata)
    (hr : Json.jOr n.relativePath .jnull = n.relativePath)
    (hp : Json.jOr n.playState .jnull = n.playState)
    (hs : Json.jOr n.skipReason .jnull = n.skipReason)
    (hl : Json.jOr n.lastProcessedAt .jnull = n.lastProcessedAt) :
    computePrev (some (entryFromComparable id n t)) = n := by
  obtain ⟨nm, nr, np, ns, nl⟩ := n
  simp only [computePrev, entryFromComparable, exField] at *
  simp [Comparable.mk.injEq]
  exact ⟨hm, hr, hp, hs, hl⟩

theorem computeNext_of_entryFrom (ex : Option MEntry) (p : UpsertPayload) (t1 t2 id : String)
    (hproc : p.processed.truthy = false ∨ (t2 = t1 ∧ t1 ≠ "")) :
    computeNext (some (entryFromComparable id (computeNext ex p t1) t1)) p t2 =
      computeNext ex p t1 := by
  have hser : (if p.metadata.truthy then cloneMetadata p.metadata
      else Json.jOr (computeNext ex p t1).metadata .jnull) = (computeNext ex p t1).metadata := by
    by_cases hm : p.metadata.truthy = true
    · rw [if_pos hm, computeNext_metadata, if_pos hm]
    · rw [if_neg hm, computeNext_metadata ex p t1, if_neg hm, jOr_null_idem]
  have hf1 : (computeNext (some (entryFromComparable id (computeNext ex p t1) t1)) p t2).metadata =
      (computeNext ex p t1).metadata := by
    rw [computeNext_metadata]
    simp only [exField, entryFromComparable]
    exact hser
  refine comparable_ext _ _ hf1 ?_ ?_ ?_ ?_
  · simp only [computeNext_relativePath]
    cases hpr : p.relativePath
    case jstr s => rfl
    all_goals
      simp only [exField, entryFromComparable]
      rw [show (computeNext ex p t1).relativePath =
          Json.jOr (exField ex MEntry.relativePath) .jnull from by
        rw [computeNext_relativePath, hpr]]
      rw [jOr_null_idem]
      exact rfl
  · rw [computeNext_playState, hf1]
    by_cases hcnd : ((computeNext ex p t1).metadata.truthy &&
        ((computeNext ex p t1).metadata.jGet "listeningStatus").truthy) = true
    · rw [if_pos hcnd, computeNext_playState ex p t1, if_pos hcnd]
    · rw [if_neg hcnd]
      simp only [exField, entryFromComparable]
      rw [show (computeNext ex p t1).playState =
          Json.jOr (exField ex MEntry.playState) .jnull from by
        rw [computeNext_playState ex p t1, if_neg hcnd]]
      rw [jOr_null_idem]
  · rw [computeNext_skipReason, computeNext_skipReason]
  · rw [computeNext_lastProcessedAt]
    rcases hproc with hpf | ⟨ht, hne⟩
    · rw [if_neg (by simp [hpf])]
      simp only [exField, entryFromComparable]
      rw [show (computeNext ex p t1).lastProcessedAt =
          Json.jOr (exField ex MEntry.lastProcessedAt) .jnull from by
        rw [computeNext_lastProcessedAt ex p t1, if_neg (by simp [hpf])]]
      rw [jOr_null_idem]
    · by_cases hpt : p.processed.truthy = true
      · rw [if_pos hpt, computeNext_lastProcessedAt ex p t1, if_pos hpt, ht]
      · rw [if_neg hpt]
        simp only [exField, entryFromComparable]
        rw [show (computeNext ex p t1).lastProcessedAt =
            Json.jOr (exField ex MEntry.lastProcessedAt) .jnull from by
          rw [computeNext_lastProcessedAt ex p t1, if_neg hpt]]
        rw [jOr_null_idem]

theorem upsert_changed (entries : List (String × MEntry)) (p : UpsertPayload) (t : String)
    (hid : p.identifier ≠ "")
    (hch : dropUndef (comparableToJson (computePrev (entries.lookup p.identifier))) ≠
      dropUndef (comparableToJson (computeNext (entries.lookup p.identifier) p t))) :
    upsertManifestEntry entries (some p) t =
      (true, setEntry entries p.identifier
        (entryFromComparable p.identifier (computeNext (entries.lookup p.identifier) p t) t)) := by
  simp only [upsertManifestEntry]
  rw [if_neg hid, if_neg hch]

theorem upsert_unchanged (entries : List (String × MEntry)) (p : UpsertPayload) (t : String)
    (hid : p.identifier ≠ "")
    (heq : dropUndef (comparableToJson (computePrev (entries.lookup p.identifier))) =
      dropUndef (comparableToJson (computeNext (entries.lookup p.identifier) p t))) :
    upsertManifestEntry entries (some p) t = (false, entries) := by
  simp only [upsertManifestEntry]
  rw [if_neg hid, if_pos heq]

theorem upsert_fst_true (entries : List (String × MEntry)) (p : UpsertPayload) (t : String)
    (h : (upsertManifestEntry entries (some p) t).1 = true) :
    p.identifier ≠ "" ∧
    dropUndef (comparableToJson (computePrev (entries.lookup p.identifier))) ≠
      dropUndef (comparableToJson (computeNext (entries.lookup p.identifier) p t)) := by
  by_cases hid : p.identifier = ""
  · rw [show upsertManifestEntry entries (some p) t = (false, entries) from by
      simp [upsertManifestEntry, hid]] at h
    exact absurd h (by simp)
  · refine ⟨hid, ?_⟩
    intro heq
    rw [upsert_unchanged entries p t hid heq] at h
    exact absurd h (by simp)

/-- Claim C2 (amended): if upserting a payload reports a change (returns
true), and the processed flag is falsy or both calls carry the same
nonempty timestamp, and the recomputed relativePath and playState survive
the null-defaulting of the stored projection (each is truthy or exactly
null), then a second call with the identical payload returns false and
leaves the manifest - hence the entry and its lastUpdatedAt - unchanged,
and the stored comparable projection equals the one recomputed from the
payload. -/
theorem upsert_twice_amended :
    ∀ (entries : List (String × MEntry)) (p : UpsertPayload) (t1 t2 : String),
      p.identifier ≠ "" →
      (p.processed.truthy = false ∨ (t2 = t1 ∧ t1 ≠ "")) →
      Json.jOr (computeNext (entries.lookup p.identifier) p t1).relativePath .jnull =
        (computeNext (entries.lookup p.identifier) p t1).relativePath →
      Json.jOr (computeNext (entries.lookup p.identifier) p t1).playState .jnull =
        (computeNext (entries.lookup p.identifier) p t1).playState →
      (upsertManifestEntry entries (some p) t1).1 = true →
      (upsertManifestEntry (upsertManifestEntry entries (some p) t1).2 (some p) t2).1 = false ∧
      (upsertManifestEntry (upsertManifestEntry entries (some p) t1).2 (some p) t2).2 =
        (upsertManifestEntry entries (some p) t1).2 ∧
      computePrev (((upsertManifestEntry entries (some p) t1).2).lookup p.identifier) =
        computeNext (((upsertManifestEntry entries (some p) t1).2).lookup p.identifier) p t2 := by
  intro entries p t1 t2 hid hproc hrel hps hb1
  obtain ⟨-, hch⟩ := upsert_fst_true entries p t1 hb1
  have hm1 : (upsertManifestEntry entries (some p) t1).2 =
      setEntry entries p.identifier
        (entryFromComparable p.identifier (computeNext (entries.lookup p.identifier) p t1) t1) := by
    rw [upsert_changed entries p t1 hid hch]
  have hlu : ((upsertManifestEntry entries (some p) t1).2).lookup p.identifier =
      some (entryFromComparable p.identifier (computeNext (entries.lookup p.identifier) p t1) t1) := by
    rw [hm1]
    exact lookup_setEntry _ _ _
  have hmeta : Json.jOr (computeNext (entries.lookup p.identifier) p t1).metadata .jnull =
      (computeNext (entries.lookup p.identifier) p t1).metadata := by
    rw [computeNext_metadata]
    by_cases hm : p.metadata.truthy = true
    · rw [if_pos hm]
      exact cloneMetadata_jOr _
    · rw [if_neg hm]
      exact jOr_null_idem _
  have hskip : Json.jOr (computeNext (entries.lookup p.identifier) p t1).skipReason .jnull =
      (computeNext (entries.lookup p.identifier) p t1).skipReason := by
    rw [computeNext_skipReason]
    exact jOr_null_idem _
  have hlpa : Json.jOr (computeNext (entries.lookup p.identifier) p t1).lastProcessedAt .jnull =
      (computeNext (entries.lookup p.identifier) p t1).lastProcessedAt := by
    rw [computeNext_lastProcessedAt]
    rcases hproc with hpf | ⟨ht, hne⟩
    · rw [if_neg (by simp [hpf])]
      exact jOr_null_idem _
    · by_cases hpt : p.processed.truthy = true
      · rw [if_pos hpt]
        exact jOr_null_of_truthy (by simp [Json.truthy, hne])
      · rw [if_neg hpt]
        exact jOr_null_idem _
  have hprev2 : computePrev (((upsertManifestEntry entries (some p) t1).2).lookup p.identifier) =
      computeNext (entries.lookup p.identifier) p t1 := by
    rw [hlu]
    exact computePrev_of_entryFrom _ _ _ hmeta hrel hps hskip hlpa
  have hnext2 :
      computeNext (((upsertManifestEntry entries (some p) t1).2).lookup p.identifier) p t2 =
        computeNext (entries.lookup p.identifier) p t1 := by
    rw [hlu]
    exact computeNext_of_entryFrom (entries.lookup p.identifier) p t1 t2 p.identifier hproc
  have hsecond : upsertManifestEntry ((upsertManifestEntry entries (some p) t1).2) (some p) t2 =
      (false, (upsertManifestEntry entries (some p) t1).2) :=
    upsert_unchanged _ p t2 hid (by rw [hprev2, hnext2])
  exact ⟨by rw [hsecond], by rw [hsecond], by rw [hprev2, hnext2]⟩

/-- Claim C2 counterexample: with an empty manifest and a payload carrying
only the identifier "x", the projection recomputed from the payload already
equals the stored default, so the FIRST call returns false and the manifest
is untouched, refuting the claim that the first of two identical calls
always returns true. -/
theorem upsert_first_call_counterexample :
    (upsertManifestEntry [] (some ⟨"x", .jnull, .jnull, .jnull, .jnull⟩)
        "2024-01-01T00:00:00.000Z").1 = false ∧
    (upsertManifestEntry [] (some ⟨"x", .jnull, .jnull, .jnull, .jnull⟩)
        "2024-01-01T00:00:00.000Z").2 = [] := by decide

/-- Witness for the amended upsert claim at a concrete payload with
metadata, path and a processed flag, both calls at the same timestamp. -/
theorem upsert_twice_amended_witness :
    (upsertManifestEntry
      (upsertManifestEntry []
        (some ⟨"x", .jobj [("listeningStatus", .jobj [("playState", .jstr "played")])],
          .jstr "a.md", .jnull, .jbool true⟩) "2024-01-01T00:00:00.000Z").2
      (some ⟨"x", .jobj [("listeningStatus", .jobj [("playState", .jstr "played")])],
        .jstr "a.md", .jnull, .jbool true⟩) "2024-01-01T00:00:00.000Z").1 = false :=
  (upsert_twice_amended []
    ⟨"x", .jobj [("listeningStatus", .jobj [("playState", .jstr "played")])],
      .jstr "a.md", .jnull, .jbool true⟩
    "2024-01-01T00:00:00.000Z" "2024-01-01T00:00:00.000Z"
    (by decide) (Or.inr ⟨rfl, by decide⟩) (by decide) (by decide) (by decide)).1

/-- Claim C10: upserting a falsy payload, or one whose identifier is
missing or empty, returns false and leaves the manifest untouched - no
entry is created or modified and no timestamp stamped. -/
theorem upsert_invalid_payload_noop :
    ∀ (entries : List (String × MEntry)) (t : String),
      upsertManifestEntry entries none t = (false, entries) ∧
      ∀ p : UpsertPayload, p.identifier = "" →
        upsertManifestEntry entries (some p) t = (false, entries) := by
  intro entries t
  refine ⟨rfl, ?_⟩
  intro p hp
  simp [upsertManifestEntry, hp]

theorem lookup_append_single {β : Type} (map : List (String × β)) (k id : String) (v : β) :
    (map ++ [(k, v)]).lookup id =
      (match map.lookup id with
       | some w => some w
       | none => if id = k then some v else none) := by
  induction map with
  | nil =>
      rw [List.nil_append, lookup_cons]
      rfl
  | cons head rest ih =>
      obtain ⟨k0, v0⟩ := head
      by_cases h : id = k0
      · simp [lookup_cons, h]
      · simp only [List.cons_append, lookup_cons, if_neg h]
        exact ih

theorem mem_keys_of_lookup_some {β : Type} (l : List (String × β)) (id : String) (w : β)
    (h : l.lookup id = some w) : id ∈ l.map Prod.fst := by
  induction l with
  | nil => simp [List.lookup] at h
  | cons head rest ih =>
      obtain ⟨k0, v0⟩ := head
      rw [lookup_cons] at h
      by_cases hy : id = k0
      · simp [hy]
      · rw [if_neg hy] at h
        simp only [List.map_cons, List.mem_cons]
        exact Or.inr (ih h)

theorem merge_preserves (entries : List (String × MEntry)) (map : List (String × Json))
    (id : String) (h : (map.lookup id).isSome) :
    (mergeManifestMetadataIntoMap entries map).lookup id = map.lookup id := by
  induction entries generalizing map with
  | nil => rfl
  | cons head rest ih =>
      obtain ⟨k0, e0⟩ := head
      simp only [mergeManifestMetadataIntoMap]
      by_cases hm : e0.metadata.truthy = false
      · rw [if_pos hm]
        exact ih map h
      · rw [if_neg hm]
        by_cases hk : (map.lookup k0).isSome
        · rw [if_pos hk]
          exact ih map h
        · rw [if_neg hk]
          obtain ⟨w, hw⟩ := Option.isSome_iff_exists.mp h
          have hupd : ((map ++ [(k0, cloneMetadata e0.metadata)]).lookup id) = map.lookup id := by
            rw [lookup_append_single, hw]
          rw [ih _ (by rw [hupd]; exact h), hupd]

theorem merge_inserts (entries : List (String × MEntry)) (map : List (String × Json))
    (id : String) (e : MEntry) (he : entries.lookup id = some e)
    (ht : e.metadata.truthy = true) (habs : (map.lookup id).isSome = false) :
    (mergeManifestMetadataIntoMap entries map).lookup id = some (cloneMetadata e.metadata) := by
  induction entries generalizing map with
  | nil => simp [List.lookup] at he
  | cons head rest ih =>
      obtain ⟨k0, e0⟩ := head
      rw [lookup_cons] at he
      simp only [mergeManifestMetadataIntoMap]
      have hnone : map.lookup id = none := by
        cases hx : map.lookup id
        · rfl
        · rw [hx] at habs
          simp at habs
      by_cases hk : id = k0
      · rw [if_pos hk] at he
        have hee : e0 = e := Option.some.inj he
        subst hee
        subst hk
        rw [if_neg (by simp [ht]), if_neg (by simp [habs])]
        have happ : ((map ++ [(id, cloneMetadata e0.metadata)]).lookup id) =
            some (cloneMetadata e0.metadata) := by
          rw [lookup_append_single, hnone, if_pos rfl]
        rw [merge_preserves rest _ id (by rw [happ]; rfl), happ]
      · rw [if_neg hk] at he
        by_cases hm : e0.metadata.truthy = false
        · rw [if_pos hm]
          exact ih _ he habs
        · rw [if_neg hm]
          by_cases hk0 : (map.lookup k0).isSome
          · rw [if_pos hk0]
            exact ih _ he habs
          · rw [if_neg hk0]
            refine ih _ he ?_
            rw [lookup_append_single, hnone, if_neg hk]
            rfl

theorem merge_absent (entries : List (String × MEntry)) (map : List (String × Json))
    (id : String) (hnd : (entries.map Prod.fst).Nodup)
    (habs : (map.lookup id).isSome = false)
    (hfal : ∀ e, entries.lookup id = some e → e.metadata.truthy = false) :
    ((mergeManifestMetadataIntoMap entries map).lookup id).isSome = false := by
  induction entries generalizing map with
  | nil => exact habs
  | cons head rest ih =>
      obtain ⟨k0, e0⟩ := head
      simp only [List.map_cons, List.nodup_cons] at hnd
      obtain ⟨hk0mem, hnd2⟩ := hnd
      have hnone : map.lookup id = none := by
        cases hx : map.lookup id
        · rfl
        · rw [hx] at habs
          simp at habs
      simp only [mergeManifestMetadataIntoMap]
      by_cases hk : id = k0
      · subst hk
        have hm : e0.metadata.truthy = false := hfal e0 (by rw [lookup_cons, if_pos rfl])
        rw [if_pos hm]
        refine ih map hnd2 habs ?_
        intro e hre
        exact absurd (mem_keys_of_lookup_some rest id e hre) hk0mem
      · have hfal2 : ∀ e, rest.lookup id = some e → e.metadata.truthy = false := by
          intro e hre
          exact hfal e (by rw [lookup_cons, if_neg hk]; exact hre)
        by_cases hm : e0.metadata.truthy = false
        · rw [if_pos hm]
          exact ih map hnd2 habs hfal2
        · rw [if_neg hm]
          by_cases hk0 : (map.lookup k0).isSome
          · rw [if_pos hk0]
            exact ih map hnd2 habs hfal2
          · rw [if_neg hk0]
            refine ih _ hnd2 ?_ hfal2
            rw [lookup_append_single, hnone, if_neg hk]
            rfl

theorem compareCatalogEntriesDesc_sign :
    ∀ a b : SortEntry,
      (compareCatalogEntriesDesc a b < 0 ↔ sortKeyLt a b) ∧
      (compareCatalogEntriesDesc a b = 0 ↔ sortKeyEq a b) ∧
      (0 < compareCatalogEntriesDesc a b ↔ sortKeyLt b a) := by
  intro a b
  unfold compareCatalogEntriesDesc sortKeyLt sortKeyEq
  rcases lt_trichotomy a.sortTimestamp b.sortTimestamp with h | h | h
  · have hne : a.sortTimestamp ≠ b.sortTimestamp := ne_of_lt h
    rw [if_pos hne]
    refine ⟨?_, ?_, ?_⟩ <;> simp [h, hne, Ne.symm hne, asymm h, lt_irrefl] <;> omega
  · rcases lt_trichotomy (strLower a.showTitle) (strLower b.showTitle) with hs | hs | hs
    · refine ⟨?_, ?_, ?_⟩ <;>
        simp [localeCmpBase, localeCmp, h, hs, ne_of_lt hs, Ne.symm (ne_of_lt hs), asymm hs,
          lt_irrefl]
    · rcases lt_trichotomy (strLower a.episodeTitle) (strLower b.episodeTitle) with he | he | he
      · refine ⟨?_, ?_, ?_⟩ <;>
          simp [localeCmpBase, localeCmp, h, hs, he, ne_of_lt he, Ne.symm (ne_of_lt he),
            asymm he, lt_irrefl]
      · rcases lt_trichotomy a.identifier b.identifier with hi | hi | hi
        · refine ⟨?_, ?_, ?_⟩ <;>
            simp [localeCmpBase, localeCmp, h, hs, he, hi, ne_of_lt hi, Ne.symm (ne_of_lt hi),
              asymm hi, lt_irrefl]
        · refine ⟨?_, ?_, ?_⟩ <;>
            simp [localeCmpBase, localeCmp, h, hs, he, hi, lt_irrefl]
        · refine ⟨?_, ?_, ?_⟩ <;>
            simp [localeCmpBase, localeCmp, h, hs, he, hi, ne_of_lt hi, Ne.symm (ne_of_lt hi),
              asymm hi, lt_irrefl]
      · refine ⟨?_, ?_, ?_⟩ <;>
          simp [localeCmpBase, localeCmp, h, hs, he, ne_of_lt he, Ne.symm (ne_of_lt he),
            asymm he, lt_irrefl]
    · refine ⟨?_, ?_, ?_⟩ <;>
        simp [localeCmpBase, localeCmp, h, hs, ne_of_lt hs, Ne.symm (ne_of_lt hs), asymm hs,
          lt_irrefl]
  · have hne : a.sortTimestamp ≠ b.sortTimestamp := Ne.symm (ne_of_lt h)
    rw [if_pos hne]
    refine ⟨?_, ?_, ?_⟩ <;> simp [h, hne, Ne.symm hne, asymm h, lt_irrefl] <;> omega

theorem sortKeyLt_trans (a b c : SortEntry) (h1 : sortKeyLt a b) (h2 : sortKeyLt b c) :
    sortKeyLt a c := by
  unfold sortKeyLt at *
  rcases h1 with h1 | ⟨hts1, h1⟩
  · rcases h2 with h2 | ⟨hts2, h2⟩
    · exact Or.inl (lt_trans h2 h1)
    · exact Or.inl (by rw [← hts2]; exact h1)
  · rcases h2 with h2 | ⟨hts2, h2⟩
    · exact Or.inl (by rw [hts1]; exact h2)
    · refine Or.inr ⟨hts1.trans hts2, ?_⟩
      rcases h1 with h1 | ⟨hsh1, h1⟩
      · rcases h2 with h2 | ⟨hsh2, h2⟩
        · exact Or.inl (lt_trans h1 h2)
        · exact Or.inl (by rw [← hsh2]; exact h1)
      · rcases h2 with h2 | ⟨hsh2, h2⟩
        · exact Or.inl (by rw [hsh1]; exact h2)
        · refine Or.inr ⟨hsh1.trans hsh2, ?_⟩
          rcases h1 with h1 | ⟨hep1, h1⟩
          · rcases h2 with h2 | ⟨hep2, h2⟩
            · exact Or.inl (lt_trans h1 h2)
            · exact Or.inl (by rw [← hep2]; exact h1)
          · rcases h2 with h2 | ⟨hep2, h2⟩
            · exact Or.inl (by rw [hep1]; exact h2)
            · exact Or.inr ⟨hep1.trans hep2, lt_trans h1 h2⟩

/-- Claim C5: the catalog comparator realizes the documented total
deterministic order - descending sortTimestamp, then case-insensitive show
title, then case-insensitive episode title, then identifier: its sign is
fully characterized by the lexicographic key order (negative exactly on
strict precedence, zero exactly on key equality, positive exactly on the
reverse), and strict precedence is transitive. -/
theorem compare_catalog_entries_total_order :
    (∀ a b : SortEntry,
      (compareCatalogEntriesDesc a b < 0 ↔ sortKeyLt a b) ∧
      (compareCatalogEntriesDesc a b = 0 ↔ sortKeyEq a b) ∧
      (0 < compareCatalogEntriesDesc a b ↔ sortKeyLt b a)) ∧
    (∀ a b c : SortEntry, compareCatalogEntriesDesc a b < 0 →
      compareCatalogEntriesDesc b c < 0 → compareCatalogEntriesDesc a c < 0) :=
  ⟨compareCatalogEntriesDesc_sign, fun a b c h1 h2 =>
    (compareCatalogEntriesDesc_sign a c).1.mpr
      (sortKeyLt_trans a b c
        ((compareCatalogEntriesDesc_sign a b).1.mp h1)
        ((compareCatalogEntriesDesc_sign b c).1.mp h2))⟩

/-- Witness for the comparator claim: transitivity applied at three
concrete entries with descending timestamps. -/
theorem compare_catalog_entries_total_order_witness :
    compareCatalogEntriesDesc ⟨3, "Show A", "Ep x", "id1"⟩ ⟨1, "Show C", "Ep z", "id3"⟩ < 0 :=
  compare_catalog_entries_total_order.2 ⟨3, "Show A", "Ep x", "id1"⟩ ⟨2, "Show B", "Ep y", "id2"⟩
    ⟨1, "Show C", "Ep z", "id3"⟩ (by decide) (by decide)


theorem tokenSplit_ne_nil : ∀ (cs : List Char) (t : List Char), t ∈ tokenSplit cs → t ≠ [] := by
  intro cs
  induction cs using tokenSplit.induct with
  | case1 =>
      intro t ht
      simp [tokenSplit] at ht
  | case2 c hc r tail hr t0 ts2 ts hts ih =>
      intro t ht
      rw [tokenSplit] at ht
      simp only [hc, hr, if_true] at ht
      rw [show tokenSplit (r :: tail) = t0 :: ts2 from hts] at ht
      simp only [List.mem_cons] at ht
      rcases ht with ht | ht
      · subst ht
        simp
      · refine ih t ?_
        rw [show tokenSplit (r :: tail) = t0 :: ts2 from hts]
        exact List.mem_cons_of_mem _ ht
  | case3 c hc r tail hr ts hts ih =>
      intro t ht
      rw [tokenSplit] at ht
      simp only [hc, hr, if_true] at ht
      rw [show tokenSplit (r :: tail) = [] from hts] at ht
      simp at ht
      subst ht
      simp
  | case4 c hc r tail hr ih =>
      intro t ht
      rw [tokenSplit] at ht
      simp only [hc, if_true] at ht
      rw [if_neg hr] at ht
      simp only [List.mem_cons] at ht
      rcases ht with ht | ht
      · subst ht
        simp
      · exact ih t ht
  | case5 c hc ih =>
      intro t ht
      simp [tokenSplit, hc] at ht
      subst ht
      simp
  | case6 c rest hc ih =>
      intro t ht
      cases rest with
      | nil => simp [tokenSplit, hc] at ht
      | cons r rs =>
          rw [tokenSplit] at ht
          simp only [hc, if_false] at ht
          exact ih t ht

theorem joinSpaces_ne_nil (t : List Char) (ts : List (List Char)) (ht : t ≠ []) :
    joinSpaces (t :: ts) ≠ [] := by
  cases ts with
  | nil => simpa [joinSpaces] using ht
  | cons t2 ts2 => simp [joinSpaces]

theorem buildMatchCandidate_none (v : String) (h : buildMatchCandidate v = none) :
    normTokenChars v = [] := by
  unfold buildMatchCandidate at h
  split at h
  · assumption
  · simp at h

theorem buildMatchCandidate_some (v : String) (c : MatchCandidate)
    (h : buildMatchCandidate v = some c) :
    normTokenChars v ≠ [] ∧
    c = { normalized := normalizeMatchValue v,
          collapsed := String.mk (normTokenChars v).flatten,
          tokens := (normTokenChars v).map String.mk,
          initials := String.mk ((normTokenChars v).filterMap List.head?) } := by
  unfold buildMatchCandidate at h
  split at h
  · simp at h
  · exact ⟨by assumption, (Option.some.inj h).symm⟩

theorem strMk_eq_empty (l : List Char) : String.mk l = "" ↔ l = [] :=
  ⟨fun h => congrArg String.data h, fun h => by rw [h]⟩

theorem jsIncludes_iff (hay needle : String) :
    jsIncludes hay needle = true ↔ needle.data <:+: hay.data := by
  simp [jsIncludes]

theorem fuzzy_matcher_iff :
    ∀ (query : String) (m : String → Bool), createFuzzyMatcher query = some m →
      ∀ value : String, m value = true ↔
        (jsIncludes (normalizeMatchValue value) (normalizeMatchValue query) = true ∨
         jsIncludes (String.mk (normTokenChars value).flatten)
           (String.mk (normTokenChars query).flatten) = true ∨
         (∀ t ∈ (normTokenChars query).map String.mk,
            jsIncludes (normalizeMatchValue value) t = true) ∨
         jsIncludes (String.mk ((normTokenChars value).filterMap List.head?))
           (String.mk ((normTokenChars query).filterMap List.head?)) = true) := by
  intro query m hm value
  unfold createFuzzyMatcher at hm
  cases hq : buildMatchCandidate query with
  | none =>
      rw [hq] at hm
      exact absurd hm (by simp)
  | some c =>
      rw [hq] at hm
      have hm2 : m = _ := (Option.some.inj hm).symm
      obtain ⟨hqt, hc⟩ := buildMatchCandidate_some query c hq
      subst hc
      subst hm2
      obtain ⟨qt, qrest, hq2⟩ : ∃ a l, normTokenChars query = a :: l := by
        cases hqq : normTokenChars query with
        | nil => exact absurd hqq hqt
        | cons a l => exact ⟨a, l, rfl⟩
      have hqtmem : qt ∈ normTokenChars query := by
        rw [hq2]
        exact List.mem_cons_self _ _
      have hqtne : qt ≠ [] := tokenSplit_ne_nil (query.data.map asciiLower) qt hqtmem
      have hqjoin : joinSpaces (normTokenChars query) ≠ [] := by
        rw [hq2]
        exact joinSpaces_ne_nil qt qrest hqtne
      have hqflat : (normTokenChars query).flatten ≠ [] := by
        rw [hq2]
        simp [hqtne]
      have hqinit : (normTokenChars query).filterMap List.head? ≠ [] := by
        rw [hq2]
        obtain ⟨c0, cs0, rfl⟩ : ∃ a l, qt = a :: l := by
          cases qt with
          | nil => exact absurd rfl hqtne
          | cons a l => exact ⟨a, l, rfl⟩
        simp [List.filterMap_cons]
      cases hv : buildMatchCandidate value with
      | none =>
          have hvt := buildMatchCandidate_none value hv
          have hvdata : (normalizeMatchValue value).data = [] := by
            unfold normalizeMatchValue
            rw [hvt]
            rfl
          have hvflat : (String.mk (normTokenChars value).flatten).data = [] := by
            rw [hvt]
            rfl
          have hvinit : (String.mk ((normTokenChars value).filterMap List.head?)).data = [] := by
            rw [hvt]
            rfl
          simp only [hv]
          constructor
          · intro hfalse
            exact absurd hfalse (by simp)
          · rintro (h | h | h | h)
            · rw [jsIncludes_iff, hvdata, List.infix_nil] at h
              exact (hqjoin h).elim
            · rw [jsIncludes_iff, hvflat, List.infix_nil] at h
              exact (hqflat h).elim
            · have hmem : String.mk qt ∈ (normTokenChars query).map String.mk := by
                rw [hq2]
                exact List.mem_map_of_mem String.mk (List.mem_cons_self _ _)
              have h1 := h (String.mk qt) hmem
              rw [jsIncludes_iff, hvdata, List.infix_nil] at h1
              exact (hqtne h1).elim
            · rw [jsIncludes_iff, hvinit, List.infix_nil] at h
              exact (hqinit h).elim
      | some tc =>
          obtain ⟨hvt, htc⟩ := buildMatchCandidate_some value tc hv
          subst htc
          simp only [hv]
          have g1 : ((normalizeMatchValue query) != "") = true := by
            simp only [bne_iff_ne, ne_eq]
            unfold normalizeMatchValue
            rw [strMk_eq_empty]
            exact hqjoin
          have g2 : ((String.mk (normTokenChars query).flatten) != "") = true := by
            simp only [bne_iff_ne, ne_eq]
            rw [strMk_eq_empty]
            exact hqflat
          have g3 : decide ((normTokenChars query).map String.mk ≠ []) = true := by
            simp [hq2]
          have g4 : ((String.mk ((normTokenChars query).filterMap List.head?)) != "") = true := by
            simp only [bne_iff_ne, ne_eq]
            rw [strMk_eq_empty]
            exact hqinit
          simp only [g1, g2, g3, g4, Bool.true_and]
          by_cases hA : jsIncludes (normalizeMatchValue value) (normalizeMatchValue query) = true
          · rw [if_pos hA]
            exact iff_of_true rfl (Or.inl hA)
          · rw [if_neg hA]
            by_cases hB : jsIncludes (String.mk (normTokenChars value).flatten)
                (String.mk (normTokenChars query).flatten) = true
            · rw [if_pos hB]
              exact iff_of_true rfl (Or.inr (Or.inl hB))
            · rw [if_neg hB]
              by_cases hC : ∀ t ∈ (normTokenChars query).map String.mk,
                  jsIncludes (normalizeMatchValue value) t = true
              · have hCb : (((normTokenChars query).map String.mk).all
                    (fun t => jsIncludes (normalizeMatchValue value) t)) = true :=
                  List.all_eq_true.mpr hC
                rw [if_pos hCb]
                exact iff_of_true rfl (Or.inr (Or.inr (Or.inl hC)))
              · have hCb : ¬ ((((normTokenChars query).map String.mk).all
                    (fun t => jsIncludes (normalizeMatchValue value) t)) = true) :=
                  fun hh => hC (List.all_eq_true.mp hh)
                rw [if_neg hCb]
                by_cases hD : jsIncludes (String.mk ((normTokenChars value).filterMap List.head?))
                    (String.mk ((normTokenChars query).filterMap List.head?)) = true
                · rw [if_pos hD]
                  exact iff_of_true rfl (Or.inr (Or.inr (Or.inr hD)))
                · rw [if_neg hD]
                  refine iff_of_false (by simp) ?_
                  rintro (h | h | h | h)
                  exacts [hA h, hB h, hC h, hD h]

theorem jGet_jSet_same (fields : List (String × Json)) (k : String) (x : Json) :
    (jSet (.jobj fields) k x).jGet k = x := by
  simp only [jSet, Json.jGet]
  rw [lookup_setEntry]
  rfl

theorem jGet_jSet_other (fields : List (String × Json)) (k k2 : String) (x : Json)
    (h : k2 ≠ k) : (jSet (.jobj fields) k x).jGet k2 = (Json.jobj fields).jGet k2 := by
  simp only [jSet, Json.jGet]
  rw [lookup_setEntry_other _ _ _ _ h]

theorem load_ok_obj (raw : String) (fields : List (String × Json))
    (hraw : jsBlank raw = false) :
    loadListeningStatusManifest (.content raw (.ok (.jobj fields))) =
      (jSet
        (jSet
          (if !(((Json.jobj fields).jGet "entries").truthy &&
              ((Json.jobj fields).jGet "entries").isObjLike) then
            jSet (.jobj fields) "entries" (.jobj []) else .jobj fields)
          "version" (.jnum 1))
        "updatedAt"
        (Json.jOr
          ((jSet
            (if !(((Json.jobj fields).jGet "entries").truthy &&
                ((Json.jobj fields).jGet "entries").isObjLike) then
              jSet (.jobj fields) "entries" (.jobj []) else .jobj fields)
            "version" (.jnum 1)).jGet "updatedAt") .jnull), false) := by
  simp only [loadListeningStatusManifest]
  rw [if_neg (by simp [hraw])]
  rw [if_neg (by simp [Json.truthy, Json.isObjLike])]

/-- Claim C7 (amended): loading never raises - the model is a total
function over every read outcome; a missing file or blank content silently
degrades to the empty manifest, a read or parse error degrades to the
empty manifest WITH a warning, a truthy non-object parse silently
degrades, and a parsed plain object is returned with its version stamped,
a non-object entries field reset to an empty map, and updatedAt defaulted
through null-coalescing - preserving its other fields (such as a prior
updatedAt) rather than resetting to the empty manifest. -/
theorem load_manifest_amended :
    loadListeningStatusManifest .missing = (createEmptyManifest, false) ∧
    loadListeningStatusManifest .readError = (createEmptyManifest, true) ∧
    (∀ (raw : String) (parsed : Except Unit Json), jsBlank raw = true →
      loadListeningStatusManifest (.content raw parsed) = (createEmptyManifest, false)) ∧
    (∀ (raw : String) (e : Unit), jsBlank raw = false →
      loadListeningStatusManifest (.content raw (.error e)) = (createEmptyManifest, true)) ∧
    (∀ (raw : String) (v : Json), jsBlank raw = false → (v.truthy && v.isObjLike) = false →
      loadListeningStatusManifest (.content raw (.ok v)) = (createEmptyManifest, false)) ∧
    (∀ (raw : String) (fields : List (String × Json)), jsBlank raw = false →
      (loadListeningStatusManifest (.content raw (.ok (.jobj fields)))).2 = false ∧
      (loadListeningStatusManifest (.content raw (.ok (.jobj fields)))).1.jGet "version" =
        .jnum 1 ∧
      ((loadListeningStatusManifest (.content raw (.ok (.jobj fields)))).1.jGet
        "entries").isObjLike = true ∧
      (loadListeningStatusManifest (.content raw (.ok (.jobj fields)))).1.jGet "updatedAt" =
        Json.jOr ((Json.jobj fields).jGet "updatedAt") .jnull) := by
  refine ⟨rfl, rfl, ?_, ?_, ?_, ?_⟩
  · intro raw parsed h
    simp [loadListeningStatusManifest, h]
  · intro raw e h
    simp [loadListeningStatusManifest, h]
  · intro raw v h1 h2
    simp only [loadListeningStatusManifest]
    rw [if_neg (by simp [h1]), if_pos (by simp [h2])]
  · intro raw fields hraw
    rw [load_ok_obj raw fields hraw]
    by_cases hent : (((Json.jobj fields).jGet "entries").truthy &&
        ((Json.jobj fields).jGet "entries").isObjLike) = true
    · have hv1 : (if !(((Json.jobj fields).jGet "entries").truthy &&
          ((Json.jobj fields).jGet "entries").isObjLike) then
            jSet (.jobj fields) "entries" (.jobj []) else Json.jobj fields) = Json.jobj fields := by
        rw [if_neg (by simp [hent])]
      rw [hv1]
      rw [show jSet (Json.jobj fields) "version" (.jnum 1) =
          Json.jobj (setEntry fields "version" (.jnum 1)) from rfl]
      refine ⟨rfl, ?_, ?_, ?_⟩
      · rw [jGet_jSet_other _ _ _ _ (by decide)]
        rw [show (Json.jobj (setEntry fields "version" (.jnum 1))) =
            jSet (Json.jobj fields) "version" (.jnum 1) from rfl]
        rw [jGet_jSet_same]
      · rw [jGet_jSet_other _ _ _ _ (by decide)]
        rw [show (Json.jobj (setEntry fields "version" (.jnum 1))) =
            jSet (Json.jobj fields) "version" (.jnum 1) from rfl]
        rw [jGet_jSet_other _ _ _ _ (by decide)]
        have := hent
        rw [Bool.and_eq_true] at this
        exact this.2
      · rw [jGet_jSet_same]
        rw [show (Json.jobj (setEntry fields "version" (.jnum 1))) =
            jSet (Json.jobj fields) "version" (.jnum 1) from rfl]
        rw [jGet_jSet_other _ _ _ _ (by decide)]
    · have hv1 : (if !(((Json.jobj fields).jGet "entries").truthy &&
          ((Json.jobj fields).jGet "entries").isObjLike) then
            jSet (.jobj fields) "entries" (.jobj []) else Json.jobj fields) =
          jSet (.jobj fields) "entries" (.jobj []) := by
        rw [if_pos (by simp [hent])]
      rw [hv1]
      rw [show jSet (Json.jobj fields) "entries" (.jobj []) =
          Json.jobj (setEntry fields "entries" (.jobj [])) from rfl]
      rw [show jSet (Json.jobj (setEntry fields "entries" (.jobj []))) "version" (.jnum 1) =
          Json.jobj (setEntry (setEntry fields "entries" (.jobj [])) "version" (.jnum 1))
          from rfl]
      refine ⟨rfl, ?_, ?_, ?_⟩
      · rw [jGet_jSet_other _ _ _ _ (by decide)]
        rw [show (Json.jobj (setEntry (setEntry fields "entries" (.jobj [])) "version"
            (.jnum 1))) = jSet (Json.jobj (setEntry fields "entries" (.jobj []))) "version"
            (.jnum 1) from rfl]
        rw [jGet_jSet_same]
      · rw [jGet_jSet_other _ _ _ _ (by decide)]
        rw [show (Json.jobj (setEntry (setEntry fields "entries" (.jobj [])) "version"
            (.jnum 1))) = jSet (Json.jobj (setEntry fields "entries" (.jobj []))) "version"
            (.jnum 1) from rfl]
        rw [jGet_jSet_other _ _ _ _ (by decide)]
        rw [show (Json.jobj (setEntry fields "entries" (.jobj []))) =
            jSet (Json.jobj fields) "entries" (.jobj []) from rfl]
        rw [jGet_jSet_same]
        rfl
      · rw [jGet_jSet_same]
        rw [show (Json.jobj (setEntry (setEntry fields "entries" (.jobj [])) "version"
            (.jnum 1))) = jSet (Json.jobj (setEntry fields "entries" (.jobj []))) "version"
            (.jnum 1) from rfl]
        rw [jGet_jSet_other _ _ _ _ (by decide)]
        rw [show (Json.jobj (setEntry fields "entries" (.jobj []))) =
            jSet (Json.jobj fields) "entries" (.jobj []) from rfl]
        rw [jGet_jSet_other _ _ _ _ (by decide)]

/-- Claim C7 counterexample: a parsed object of wrong shape (entries is
the number 5) keeps its own updatedAt and produces no warning, refuting
the claim that a wrong-shaped parse yields the empty manifest (null
updatedAt) plus a warning. -/
theorem load_manifest_wrong_shape_counterexample :
    (loadListeningStatusManifest (.content "x"
      (.ok (.jobj [("entries", .jnum 5), ("updatedAt", .jstr "2020-01-01")])))).1.jGet
      "updatedAt" = .jstr "2020-01-01" ∧
    (loadListeningStatusManifest (.content "x"
      (.ok (.jobj [("entries", .jnum 5), ("updatedAt", .jstr "2020-01-01")])))).2 = false ∧
    Json.jstr "2020-01-01" ≠ .jnull := by decide

/-- Claim C8: confirming an entry whose document is not materialized
(hasMarkdown false, or a falsy absolute path) sets an inline [ERROR]
status message and leaves every other state field - in particular
resolved - unchanged: the resolution callback is never invoked and the
machine stays in Browsing.  Both confirm routes (empty buffer with no
selection confirming the cursor, and a parsed numeric buffer) reduce to
the same handleSelectIndex transition. -/
theorem selector_reject_unmaterialized :
    (∀ (entries : List SelEntry) (st : SelState) (index : Int) (target : SelEntry),
      ¬(index < 0 ∨ (entries.length : Int) ≤ index) →
      entries.get? index.toNat = some target →
      (target.hasMarkdown = false ∨ target.absolutePath.truthy = false) →
      (handleSelectIndex entries st index).statusMessage = some s!"[ERROR] Markdown file not found for {jsToString (Json.jOr target.normalizedRelativePath (Json.jOr target.relativePath (Json.jOr target.identifier (Json.jstr (toString (index + 1))))))}." ∧
      (handleSelectIndex entries st index).resolved = st.resolved ∧
      (handleSelectIndex entries st index).cursor = st.cursor ∧
      (handleSelectIndex entries st index).selected = st.selected ∧
      (handleSelectIndex entries st index).commandBuffer = st.commandBuffer) ∧
    (∀ (entries : List SelEntry) (st : SelState),
      st.commandBuffer = "" → st.selected = [] →
      onReturnKey entries st =
        handleSelectIndex entries { st with statusMessage := none } (st.cursor : Int)) ∧
    (∀ (entries : List SelEntry) (st : SelState) (numeric : Int),
      st.commandBuffer ≠ "" → jsParseIntDec st.commandBuffer = some numeric →
      onReturnKey entries st =
        handleSelectIndex entries { st with statusMessage := none, commandBuffer := "" }
          (numeric - 1)) := by
  refine ⟨?_, ?_, ?_⟩
  · intro entries st index target hrange hget hbad
    have hcond : (!target.absolutePath.truthy || !target.hasMarkdown) = true := by
      rcases hbad with h | h <;> simp [h]
    refine ⟨?_, ?_, ?_, ?_, ?_⟩ <;>
      · simp only [handleSelectIndex, if_neg hrange, hget]
        rw [if_pos hcond]
  · intro entries st h1 h2
    simp [onReturnKey, handleReturnKey, h1, h2]
  · intro entries st numeric h1 hparse
    simp [onReturnKey, handleReturnKey, h1, hparse]

/-- Witness for the selector claim at a single entry without markdown. -/
theorem selector_reject_unmaterialized_witness :
    (handleSelectIndex
      [{ identifier := .jstr "ep-1", relativePath := .jstr "show/ep-1.md",
         normalizedRelativePath := .jstr "show/ep-1.md",
         absolutePath := .jstr "/t/show/ep-1.md", hasMarkdown := false }]
      { cursor := 0, selected := [], commandBuffer := "", statusMessage := none,
        resolved := none } 0).resolved = none :=
  (selector_reject_unmaterialized.1
    [{ identifier := .jstr "ep-1", relativePath := .jstr "show/ep-1.md",
       normalizedRelativePath := .jstr "show/ep-1.md",
       absolutePath := .jstr "/t/show/ep-1.md", hasMarkdown := false }]
    { cursor := 0, selected := [], commandBuffer := "", statusMessage := none,
      resolved := none } 0
    { identifier := .jstr "ep-1", relativePath := .jstr "show/ep-1.md",
      normalizedRelativePath := .jstr "show/ep-1.md",
      absolutePath := .jstr "/t/show/ep-1.md", hasMarkdown := false }
    (by decide) (by decide) (Or.inl rfl)).2.1

/-- Witness for the invalid-payload claim at an empty identifier. -/
theorem upsert_invalid_payload_noop_witness :
    upsertManifestEntry []
      (some { identifier := "", metadata := .jnull, relativePath := .jnull,
              skipReason := .jnull, processed := .jnull }) "t" = (false, []) :=
  (upsert_invalid_payload_noop [] "t").2
    { identifier := "", metadata := .jnull, relativePath := .jnull,
      skipReason := .jnull, processed := .jnull } rfl

/-- Claim C4 (amended): merging inserts, for every identifier present in
the manifest whose entry carries truthy cached metadata and that is absent
from the live map, the cloned (deep-copied, stringify round trip) metadata;
keys already present in the map keep their value, and identifiers whose
entries lack truthy metadata are skipped.  The manifest itself is a pure
value here and untouched.  Keys of a JS object are unique, hence the Nodup
hypothesis. -/
theorem merge_cached_metadata_amended :
    ∀ (entries : List (String × MEntry)) (metadataMap : List (String × Json)),
      (entries.map Prod.fst).Nodup →
      (∀ id, ((metadataMap.lookup id).isSome = true) →
        (mergeManifestMetadataIntoMap entries metadataMap).lookup id = metadataMap.lookup id) ∧
      (∀ id e, entries.lookup id = some e → e.metadata.truthy = true →
        (metadataMap.lookup id).isSome = false →
        (mergeManifestMetadataIntoMap entries metadataMap).lookup id =
          some (cloneMetadata e.metadata)) ∧
      (∀ id, (metadataMap.lookup id).isSome = false →
        (∀ e, entries.lookup id = some e → e.metadata.truthy = false) →
        ((mergeManifestMetadataIntoMap entries metadataMap).lookup id).isSome = false) :=
  fun entries metadataMap hnd =>
    ⟨fun id h => merge_preserves entries metadataMap id h,
     fun id e he ht habs => merge_inserts entries metadataMap id e he ht habs,
     fun id habs hfal => merge_absent entries metadataMap id hnd habs hfal⟩

/-- Witness for the amended merge claim: the retention example of the
specification, a manifest with entries A and B merged into a live map
containing only A, leaves the cached metadata of B in the merged map. -/
theorem merge_cached_metadata_amended_witness :
    (mergeManifestMetadataIntoMap
        [("A", { identifier := "A", metadata := Json.jobj [("episodeTitle", .jstr "a")],
                 relativePath := .jnull, playState := .jnull, skipReason := .jnull,
                 lastProcessedAt := .jnull, lastUpdatedAt := .jnull }),
         ("B", { identifier := "B", metadata := Json.jobj [("episodeTitle", .jstr "b")],
                 relativePath := .jnull, playState := .jnull, skipReason := .jnull,
                 lastProcessedAt := .jnull, lastUpdatedAt := .jnull })]
        [("A", Json.jobj [("episodeTitle", .jstr "live")])]).lookup "B" =
      some (cloneMetadata (Json.jobj [("episodeTitle", .jstr "b")])) :=
  (merge_cached_metadata_amended
    [("A", { identifier := "A", metadata := Json.jobj [("episodeTitle", .jstr "a")],
             relativePath := .jnull, playState := .jnull, skipReason := .jnull,
             lastProcessedAt := .jnull, lastUpdatedAt := .jnull }),
     ("B", { identifier := "B", metadata := Json.jobj [("episodeTitle", .jstr "b")],
             relativePath := .jnull, playState := .jnull, skipReason := .jnull,
             lastProcessedAt := .jnull, lastUpdatedAt := .jnull })]
    [("A", Json.jobj [("episodeTitle", .jstr "live")])] (by decide)).2.1 "B"
    { identifier := "B", metadata := Json.jobj [("episodeTitle", .jstr "b")],
      relativePath := .jnull, playState := .jnull, skipReason := .jnull,
      lastProcessedAt := .jnull, lastUpdatedAt := .jnull } (by decide) (by decide) (by decide)

/-- Claim C4 counterexample: an identifier present in the manifest but
with null metadata is skipped by the merge, so nothing is inserted for it,
refuting the claim that EVERY identifier present in the manifest and
absent from the map gets its cached metadata injected. -/
theorem merge_cached_metadata_counterexample :
    ((mergeManifestMetadataIntoMap
        [("A", { identifier := "A", metadata := Json.jnull, relativePath := .jnull,
                 playState := .jnull, skipReason := .jnull, lastProcessedAt := .jnull,
                 lastUpdatedAt := .jnull })] []).lookup "A") = none ∧
    mergeManifestMetadataIntoMap
        [("A", { identifier := "A", metadata := Json.jnull, relativePath := .jnull,
                 playState := .jnull, skipReason := .jnull, lastProcessedAt := .jnull,
                 lastUpdatedAt := .jnull })] [] = [] := by decide

/-- Claim C6: a fuzzy matcher built from a query matches a candidate
exactly when one of the four strategies succeeds - normalized substring,
space-collapsed substring, every query token individually a substring of
the normalized candidate, or the query initials a substring of the
candidate initials; in particular "HF" matches "Hard Fork" and
"hard fork" matches "Hard Fork: AI Edition". -/
theorem create_fuzzy_matcher_semantics :
    (∀ (query : String) (m : String → Bool), createFuzzyMatcher query = some m →
      ∀ value : String, m value = true ↔
        (jsIncludes (normalizeMatchValue value) (normalizeMatchValue query) = true ∨
         jsIncludes (String.mk (normTokenChars value).flatten)
           (String.mk (normTokenChars query).flatten) = true ∨
         (∀ t ∈ (normTokenChars query).map String.mk,
            jsIncludes (normalizeMatchValue value) t = true) ∨
         jsIncludes (String.mk ((normTokenChars value).filterMap List.head?))
           (String.mk ((normTokenChars query).filterMap List.head?)) = true)) ∧
    (createFuzzyMatcher "HF").map (fun m => m "Hard Fork") = some true ∧
    (createFuzzyMatcher "hard fork").map (fun m => m "Hard Fork: AI Edition") = some true :=
  ⟨fuzzy_matcher_iff, by decide, by decide⟩

/-- Witness for the fuzzy-matcher claim: the matcher for "HF" accepts
"Hard Fork" through the initials strategy. -/
theorem create_fuzzy_matcher_semantics_witness :
    ((createFuzzyMatcher "HF").getD (fun _ => false)) "Hard Fork" = true :=
  (create_fuzzy_matcher_semantics.1 "HF" ((createFuzzyMatcher "HF").getD (fun _ => false)) rfl
    "Hard Fork").mpr (by decide)

/-- Witness for the amended loader claim: blank content degrades silently
to the empty manifest. -/
theorem load_manifest_amended_witness :
    loadListeningStatusManifest (.content " " (.error ())) = (createEmptyManifest, false) :=
  load_manifest_amended.2.2.1 " " (.error ()) (by decide)
